import Mathlib

/-!
Verification of the gitflow branch-workflow engine of an npm repository.

The development shallowly embeds the javascript sources:
  * `lib/npm-utils.js`   — semver helpers (`getVersionCore`, `getIncrementedPatchVersion`)
    and the dependency dist-tag rewriter (`updateDistTagDependencies`);
  * `lib/validate-dependencies.js` — the per-branch dependency validator
    (`validateDependencies`, `isVersionAllowed`, `isReleaseVersion`, `getAllowedTags`);
  * `lib/lock-file-utils.js` — the lock-file scope pruner
    (`collectScopePackages`, `removeNodeModulesEntries`, `processLockFile`);
  * `lib/git-utils.js`, `lib/release-branch-scripts.js`, `lib/topic-branch-scripts.js`,
    `bin/release-start.js`, `bin/hotfix-start.js` — the workflow state machine,
    modelled as functions over an abstract repository state.

The code delegates version and range parsing to the node `semver` package
(major version 7, the maintained major when the code was written).  The parts
of that library the validator reaches are modelled here from its documented
behaviour: strict version parsing, `inc(…, 'patch')`, and range parsing into
comparator sets, including the detail that node-semver 7 desugars caret and
tilde ranges with a `-0` prerelease upper bound (`^1.2.3` becomes
`>=1.2.3 <2.0.0-0`).  X-ranges (`1.x`, `*`), hyphen ranges and whitespace
between an operator and its version are not modelled: such tokens fail parsing
here, and standalone they are classified as non-release by the library as well
(their desugaring also carries a `-0` bound, or an any-comparator whose
prerelease access throws into the same fallback branch); the difference is
only observable for exotic specifiers no dependency map in this repository uses.
-/

namespace NpmGitflow

/-! ### Character-level utilities -/

def isDigitChar (c : Char) : Bool :=
  48 ≤ c.toNat && c.toNat ≤ 57

def isAlphaChar (c : Char) : Bool :=
  (65 ≤ c.toNat && c.toNat ≤ 90) || (97 ≤ c.toNat && c.toNat ≤ 122)

/-- Characters allowed in semver prerelease/build identifiers: `[0-9A-Za-z-]`. -/
def isIdentChar (c : Char) : Bool :=
  isDigitChar c || isAlphaChar c || c = '-'

def isWsChar (c : Char) : Bool :=
  c = ' ' || c = '\t' || c = '\n' || c = '\r'

/-- Model of javascript `String.prototype.trim`. -/
def trimWs (l : List Char) : List Char :=
  ((l.dropWhile isWsChar).reverse.dropWhile isWsChar).reverse

/-- Splits a character list on a separator character (javascript `split(sep)`);
never returns the empty list. -/
def splitOnChar (sep : Char) : List Char → List (List Char)
  | [] => [[]]
  | c :: t =>
    if c = sep then [] :: splitOnChar sep t
    else
      match splitOnChar sep t with
      | [] => [[c]]
      | h :: r => (c :: h) :: r

/-- Splits on the two-character separator `||` (javascript `split('||')`). -/
def splitPipes : List Char → List (List Char)
  | [] => [[]]
  | '|' :: '|' :: t => [] :: splitPipes t
  | c :: t =>
    match splitPipes t with
    | [] => [[c]]
    | h :: r => (c :: h) :: r

/-- Splits on whitespace runs, dropping empty pieces (javascript `split(/\s+/)`
after a trim). -/
def splitWs (l : List Char) : List (List Char) :=
  (splitOnChar ' ' (l.map (fun c => if isWsChar c then ' ' else c))).filter
    (fun p => !p.isEmpty)

def takeDigits : List Char → List Char × List Char
  | [] => ([], [])
  | c :: t =>
    if isDigitChar c then
      match takeDigits t with
      | (d, r) => (c :: d, r)
    else ([], c :: t)

def digitsToNat (l : List Char) : Nat :=
  l.foldl (fun a c => a * 10 + (c.toNat - 48)) 0

/-- Model of javascript `String.prototype.startsWith`. -/
def strStartsWith (s pat : String) : Bool :=
  pat.data.isPrefixOf s.data

/-- Occurrence of `pat` as a contiguous substring, the truth value of
javascript `s.search(pat) !== -1` for a pattern without regex metacharacters
(also `s.includes(pat)`). -/
def subOccurs (pat : List Char) : List Char → Bool
  | [] => pat.isEmpty
  | c :: t => pat.isPrefixOf (c :: t) || subOccurs pat (t : List Char)

/-- Substring test on strings (javascript `includes` / `search !== -1`). -/
def strContains (s pat : String) : Bool :=
  subOccurs pat.data s.data

/-! ### The node-semver model: strict version parsing

`semver.parse` (strict mode) accepts `v?MAJOR.MINOR.PATCH(-prerelease)?(+build)?`
where each numeric component is `0|[1-9]\d*` and at most `Number.MAX_SAFE_INTEGER`,
prerelease identifiers are numeric without leading zeros or alphanumeric with at
least one non-digit, build identifiers are nonempty `[0-9A-Za-z-]+`, and the whole
string (before trimming) is at most 256 characters. -/

def maxSafeInteger : Nat := 9007199254740991

structure SemVer where
  major : Nat
  minor : Nat
  patch : Nat
  prerelease : List String
  build : List String
deriving DecidableEq, Repr

/-- Parses one numeric version component: a nonempty digit run, no leading
zero unless the component is exactly `0`, value at most `MAX_SAFE_INTEGER`. -/
def parseNumericIdent (l : List Char) : Option (Nat × List Char) :=
  match takeDigits l with
  | ([], _) => none
  | (c :: ds, r) =>
    if c = '0' && !ds.isEmpty then none
    else
      let n := digitsToNat (c :: ds)
      if n ≤ maxSafeInteger then some (n, r) else none

/-- A valid strict prerelease identifier: nonempty, over `[0-9A-Za-z-]`, and if
all digits then without a leading zero. -/
def validPreId (l : List Char) : Bool :=
  !l.isEmpty && l.all isIdentChar &&
    (!(l.all isDigitChar) ||
      (match l with
       | [] => true
       | c :: ds => !(c = '0' && !ds.isEmpty)))

/-- A valid build identifier: nonempty, over `[0-9A-Za-z-]`. -/
def validBuildId (l : List Char) : Bool :=
  !l.isEmpty && l.all isIdentChar

/-- Splits the part after `-` at the first `+` into prerelease and build
segments. -/
def splitAtPlus : List Char → List Char × Option (List Char)
  | [] => ([], none)
  | c :: t =>
    if c = '+' then ([], some t)
    else
      match splitAtPlus t with
      | (a, b) => (c :: a, b)

/-- Parses the core `M.m.p` and returns the remainder. -/
def parseCore (l : List Char) : Option (Nat × Nat × Nat × List Char) :=
  match parseNumericIdent l with
  | none => none
  | some (major, r1) =>
    match r1 with
    | '.' :: r2 =>
      match parseNumericIdent r2 with
      | none => none
      | some (minor, r3) =>
        match r3 with
        | '.' :: r4 =>
          match parseNumericIdent r4 with
          | none => none
          | some (patch, r5) => some (major, minor, patch, r5)
        | _ => none
    | _ => none

/-- Parses a full version after any surrounding whitespace has been removed;
accepts an optional leading `v` as the strict regex does. -/
def parseVersionChars (l0 : List Char) : Option SemVer :=
  let l := match l0 with
    | 'v' :: t => t
    | t => t
  match parseCore l with
  | none => none
  | some (major, minor, patch, rest) =>
    match rest with
    | [] => some ⟨major, minor, patch, [], []⟩
    | '-' :: pr =>
      match splitAtPlus pr with
      | (preChars, buildChars) =>
        let preIds := splitOnChar '.' preChars
        if preIds.all validPreId then
          match buildChars with
          | none => some ⟨major, minor, patch, preIds.map List.asString, []⟩
          | some bc =>
            let buildIds := splitOnChar '.' bc
            if buildIds.all validBuildId then
              some ⟨major, minor, patch, preIds.map List.asString,
                    buildIds.map List.asString⟩
            else none
        else none
    | '+' :: bc =>
      let buildIds := splitOnChar '.' bc
      if buildIds.all validBuildId then
        some ⟨major, minor, patch, [], buildIds.map List.asString⟩
      else none
    | _ => none

/-- Model of `semver.parse(version)` in strict mode: `null` (here `none`) on any
invalid input, including inputs longer than 256 characters. -/
def semverParse (version : String) : Option SemVer :=
  if version.length > 256 then none
  else parseVersionChars (trimWs version.data)

/-- Formats the `major.minor.patch` core of a parsed version. -/
def formatCore (major minor patch : Nat) : String :=
  toString major ++ "." ++ toString minor ++ "." ++ toString patch

/-! ### npm-utils: version helpers (from `lib/npm-utils.js`) -/

/-- Embeds `getVersionCore`: parses the version with `semver.parse` and returns
the string "major.minor.patch", or `none` when the version is invalid. -/
def getVersionCore (version : String) : Option String :=
  match semverParse version with
  | none => none
  | some parsedVersion =>
    some (formatCore parsedVersion.major parsedVersion.minor parsedVersion.patch)

/-- Model of `semver.inc(version, 'patch')`: `none` on an invalid version;
otherwise bumps the patch component unless a prerelease is present, in which
case the prerelease is merely dropped; the result carries no
prerelease/build. -/
def semverIncPatch (version : String) : Option String :=
  match semverParse version with
  | none => none
  | some p =>
    some (formatCore p.major p.minor (if p.prerelease.isEmpty then p.patch + 1 else p.patch))

/-- Embeds `getIncrementedPatchVersion`: extracts the version core and applies
`semver.inc(core, 'patch')`; `none` when the version is invalid. -/
def getIncrementedPatchVersion (version : String) : Option String :=
  match getVersionCore version with
  | none => none
  | some versionCore => semverIncPatch versionCore

/-! ### The node-semver model: range parsing into comparator sets

`new semver.Range(range)` splits on `||` into alternatives, desugars each
alternative into primitive comparators, and throws on any invalid token.
Node-semver 7 desugars caret and tilde with a `-0` prerelease upper bound:
`^1.2.3 → >=1.2.3 <2.0.0-0`, `~1.2.3 → >=1.2.3 <1.3.0-0`,
`^0.2.3 → >=0.2.3 <0.3.0-0`, `^0.0.3 → >=0.0.3 <0.0.4-0`; the desugared
comparators drop any build metadata of the written version, while a bare or
operator comparator keeps it. -/

structure Comparator where
  op : String
  ver : SemVer
deriving DecidableEq, Repr

/-- The `-0` upper-bound version used by the caret/tilde desugaring. -/
def upperBoundVer (major minor patch : Nat) : SemVer :=
  ⟨major, minor, patch, ["0"], []⟩

/-- Caret desugaring (`replaceCaret`) for a fully specified version. -/
def caretComparators (v : SemVer) : List Comparator :=
  let lower : Comparator := ⟨">=", ⟨v.major, v.minor, v.patch, v.prerelease, []⟩⟩
  if v.major ≠ 0 then [lower, ⟨"<", upperBoundVer (v.major + 1) 0 0⟩]
  else if v.minor ≠ 0 then [lower, ⟨"<", upperBoundVer 0 (v.minor + 1) 0⟩]
  else [lower, ⟨"<", upperBoundVer 0 0 (v.patch + 1)⟩]

/-- Tilde desugaring (`replaceTilde`) for a fully specified version. -/
def tildeComparators (v : SemVer) : List Comparator :=
  [⟨">=", ⟨v.major, v.minor, v.patch, v.prerelease, []⟩⟩,
   ⟨"<", upperBoundVer v.major (v.minor + 1) 0⟩]

/-- Parses one primitive comparator token `(op)version`; the operator `=` is
normalized away exactly as the `Comparator` class does. -/
def primComparator (op : String) (rest : List Char) : Option (List Comparator) :=
  match parseVersionChars rest with
  | none => none
  | some v => some [⟨op, v⟩]

/-- Parses one whitespace-delimited range token into its desugared comparator
list.  Tokens outside the modelled grammar (x-ranges, hyphen pieces, …) fail,
see the header note. -/
def parseComparatorToken (tok : List Char) : Option (List Comparator) :=
  match tok with
  | '^' :: rest =>
    match parseVersionChars rest with
    | none => none
    | some v => some (caretComparators v)
  | '~' :: '>' :: rest =>
    match parseVersionChars rest with
    | none => none
    | some v => some (tildeComparators v)
  | '~' :: rest =>
    match parseVersionChars rest with
    | none => none
    | some v => some (tildeComparators v)
  | '>' :: '=' :: rest => primComparator ">=" rest
  | '<' :: '=' :: rest => primComparator "<=" rest
  | '>' :: rest => primComparator ">" rest
  | '<' :: rest => primComparator "<" rest
  | '=' :: rest => primComparator "" rest
  | rest => primComparator "" rest

/-- Parses one `||`-alternative into its comparator list. -/
def parseAlternative (alt : List Char) : Option (List Comparator) :=
  let toks := splitWs (trimWs alt)
  if toks.isEmpty then none
  else
    match toks.mapM parseComparatorToken with
    | none => none
    | some css => some css.flatten

/-- Model of `new semver.Range(range)`: the list of alternatives, each a list
of desugared comparators; `none` models the constructor throwing. -/
def parseRange (range : String) : Option (List (List Comparator)) :=
  (splitPipes range.data).mapM parseAlternative

/-! ### validate-dependencies (from `lib/validate-dependencies.js`) -/

/-- The catch branch of `isReleaseVersion`: `semver.valid(version)` followed by
a check that the parsed version has no prerelease and no build metadata. -/
def releaseGradeVersion (version : String) : Bool :=
  match semverParse version with
  | some parsedVersion => parsedVersion.prerelease.isEmpty && parsedVersion.build.isEmpty
  | none => false

/-- Embeds `isReleaseVersion`: parses the specifier as a range and requires
every comparator of the first alternative (`range.set[0]`) to be free of
prerelease and build components; if range parsing throws, falls back to the
plain-version check. -/
def isReleaseVersion (version : String) : Bool :=
  match parseRange version with
  | some (comparators :: _) =>
    comparators.all (fun c => c.ver.prerelease.isEmpty && c.ver.build.isEmpty)
  | some [] => releaseGradeVersion version
  | none => releaseGradeVersion version

structure AllowedTags where
  exactTags : List String
  prefixTags : List String
deriving DecidableEq

/-- Embeds `getAllowedTags`: the switch over the branch type; `main` and any
unknown branch type fall through to the empty default. -/
def getAllowedTags (targetBranchType : String) : AllowedTags :=
  match targetBranchType with
  | "release" => ⟨["next"], []⟩
  | "hotfix" => ⟨["hotfix"], []⟩
  | "develop" => ⟨["dev"], []⟩
  | "feature" => ⟨["dev"], ["feature"]⟩
  | "bugfix" => ⟨["dev"], ["bugfix"]⟩
  | _ => ⟨[], []⟩

/-- Embeds `isVersionAllowed`: release versions always pass; otherwise the
specifier must equal an allowed exact tag or start with an allowed tag
prefix. -/
def isVersionAllowed (version targetBranchType : String) : Bool :=
  if isReleaseVersion version then true
  else
    let allowedTags := getAllowedTags targetBranchType
    if allowedTags.exactTags.contains version then true
    else allowedTags.prefixTags.any (fun p => strStartsWith version p)

/-- A package descriptor: the `version` field and the three dependency maps,
as association lists in JSON key order (keys within one map are distinct). -/
structure PackageJson where
  version : String
  dependencies : List (String × String)
  devDependencies : List (String × String)
  peerDependencies : List (String × String)
deriving DecidableEq, Repr

def alookup {α : Type} (l : List (String × α)) (k : String) : Option α :=
  match l with
  | [] => none
  | (k2, v) :: t => if k2 = k then some v else alookup t k

def containsKey {α : Type} (l : List (String × α)) (k : String) : Bool :=
  l.any (fun kv => kv.1 == k)

/-- Javascript object spread `{...a, ...b}`: keys of `a` in order, with `b`'s
value where `b` overrides, followed by `b`'s new keys in order. -/
def spreadTwo (a b : List (String × String)) : List (String × String) :=
  a.map (fun kv =>
    match alookup b kv.1 with
    | some v => (kv.1, v)
    | none => kv)
  ++ b.filter (fun kv => !containsKey a kv.1)

/-- The merged dependency object
`{...dependencies, ...devDependencies, ...peerDependencies}`. -/
def mergedDependencies (packageJson : PackageJson) : List (String × String) :=
  spreadTwo (spreadTwo packageJson.dependencies packageJson.devDependencies)
    packageJson.peerDependencies

def formatDep (dep version : String) : String :=
  dep ++ "@" ++ version

/-- Embeds the accumulation loop of `validateDependencies` over the merged
dependency entries: excluded packages are skipped, and every entry whose
specifier is not allowed is appended as `dep@version`. -/
def collectInvalidDeps (targetBranchType : String) (excludePackages : List String)
    (entries : List (String × String)) (acc : List String) : List String :=
  match entries with
  | [] => acc
  | (dep, version) :: t =>
    if excludePackages.contains dep then
      collectInvalidDeps targetBranchType excludePackages t acc
    else if isVersionAllowed version targetBranchType then
      collectInvalidDeps targetBranchType excludePackages t acc
    else
      collectInvalidDeps targetBranchType excludePackages t (acc ++ [formatDep dep version])

/-- Embeds `validateDependencies`: `none` models the resolved promise,
`some offenders` models `handleError` with the message listing every
offender. -/
def validateDependencies (targetBranchType : String) (excludePackages : List String)
    (packageJson : PackageJson) : Option (List String) :=
  let invalidDeps :=
    collectInvalidDeps targetBranchType excludePackages
      (mergedDependencies packageJson) []
  if invalidDeps = [] then none else some invalidDeps

/-- The offending entries of a dependency map under a branch-type policy: the
non-excluded entries whose specifier is not allowed (specification-side
characterisation, to be compared with the accumulation loop). -/
def offendingEntries (targetBranchType : String) (excludePackages : List String)
    (packageJson : PackageJson) : List (String × String) :=
  (mergedDependencies packageJson).filter
    (fun dv => !excludePackages.contains dv.1 && !isVersionAllowed dv.2 targetBranchType)

/-! ### npm-utils: the dependency dist-tag rewriter (from `lib/npm-utils.js`) -/

/-- One dependency map of `updateDistTagDependencies`: every entry whose
current value satisfies the predicate is replaced by the new version, and its
package name is recorded; the predicate only ever sees original values. -/
def updateDepList (versionPredicate : String → Bool) (newVersion : String) :
    List (String × String) → List (String × String) × List String
  | [] => ([], [])
  | (pkg, version) :: t =>
    let r := updateDepList versionPredicate newVersion t
    if versionPredicate version then ((pkg, newVersion) :: r.1, pkg :: r.2)
    else ((pkg, version) :: r.1, r.2)

/-- Embeds `updateDistTagDependencies`: rewrites the three dependency maps and
returns the updated descriptor together with the list of updated package
names (in `dependencies`, `devDependencies`, `peerDependencies` order). -/
def updateDistTagDependencies (packageJson : PackageJson)
    (versionPredicate : String → Bool) (newVersion : String) :
    PackageJson × List String :=
  let r1 := updateDepList versionPredicate newVersion packageJson.dependencies
  let r2 := updateDepList versionPredicate newVersion packageJson.devDependencies
  let r3 := updateDepList versionPredicate newVersion packageJson.peerDependencies
  ({ packageJson with
      dependencies := r1.1, devDependencies := r2.1, peerDependencies := r3.1 },
    r1.2 ++ r2.2 ++ r3.2)

/-- The rewrite over a manifest set (root manifest plus the per-package
manifests enumerated for a multi-package project): `updateDistTagDependencies`
applied to each manifest, with the updated package names concatenated. -/
def updateManifestSet (versionPredicate : String → Bool) (newVersion : String) :
    List PackageJson → List PackageJson × List String
  | [] => ([], [])
  | m :: t =>
    let r := updateDistTagDependencies m versionPredicate newVersion
    let rt := updateManifestSet versionPredicate newVersion t
    (r.1 :: rt.1, r.2 ++ rt.2)

/-! ### lock-file-utils (from `lib/lock-file-utils.js`) -/

/-- The lock file's `packages` object: resolved entries keyed by
filesystem-like paths.  The other top-level lock-file fields are untouched by
the pruner (`{...lockFileData}` copies them), so only `packages` is
modelled. -/
structure LockFile where
  packages : List (String × String)
deriving DecidableEq, Repr

/-- Embeds `removeNodeModulesEntries`: keeps exactly the entries whose path
does not start with `node_modules/<scope>` for any of the scopes. -/
def removeNodeModulesEntries (lockFileData : LockFile) (scopes : List String) :
    LockFile :=
  { lockFileData with
    packages := lockFileData.packages.filter (fun kv =>
      !(scopes.any (fun s => strStartsWith kv.1 ("node_modules/" ++ s)))) }

/-- Embeds `collectScopePackages`: the names in the three dependency maps that
start with one of the scopes, deduplicated in first-appearance order (the
`Set` insertion order). -/
def collectScopePackages (scopes : List String) (packageJson : PackageJson) :
    List String :=
  (packageJson.dependencies.map Prod.fst
    ++ packageJson.devDependencies.map Prod.fst
    ++ packageJson.peerDependencies.map Prod.fst).foldl
    (fun acc depName =>
      if scopes.any (fun s => strStartsWith depName s) && !acc.contains depName then
        acc ++ [depName]
      else acc) []

/-- Embeds `processLockFile` (its pure core — the lock file and root manifest
are passed in place of the file reads): collects the scope packages; when none
are found it returns with the lock file untouched and no re-resolution;
otherwise it prunes the `node_modules` entries and hands exactly the collected
package names to `npm update`.  The returned list is the affected-package set
passed to re-resolution. -/
def processLockFile (scopes : List String) (packageJson : PackageJson)
    (lockFileData : LockFile) : LockFile × List String :=
  let packagesToUpdate := collectScopePackages scopes packageJson
  if packagesToUpdate.isEmpty then (lockFileData, [])
  else (removeNodeModulesEntries lockFileData scopes, packagesToUpdate)

/-! ### The workflow state machine

The git operations (from `lib/git-utils.js`) act on an abstract repository
state: the manifest committed at the tip of every local and remote branch, the
checked-out branch, working-tree cleanliness, and the created/pushed tags.
Pulling a branch synchronises its local content from the remote; a `--no-ff`
merge of branch `b` into the checked-out branch takes `b`'s manifest content
(the workflows immediately overwrite the version field, the only manifest
field they read after a merge); committing is content-transparent because the
state stores committed content directly.  Every step returns the repository
state paired with `none` (continue) or `some error` (`handleError` /
`process.exit(1)`, the state at exit). -/

inductive GitflowError where
  | uncommittedChanges
  | wrongBranch
  | workflowAlreadyInProgress
  | invalidVersionFormat
  | invalidDependencies (offenders : List String)
  | underlyingToolFailure
deriving DecidableEq, Repr

structure RepoState where
  clean : Bool
  current : String
  localBranches : List (String × PackageJson)
  remoteBranches : List (String × PackageJson)
  tags : List String
  pushedTags : List String
deriving DecidableEq, Repr

/-- Replaces the value at a key, or appends the binding. -/
def aupsert {α : Type} (k : String) (v : α) : List (String × α) → List (String × α)
  | [] => [(k, v)]
  | (k2, v2) :: t => if k2 = k then (k, v) :: t else (k2, v2) :: aupsert k v t

/-- Removes every binding of a key (branch names are unique refs in git). -/
def aremove {α : Type} (k : String) (l : List (String × α)) : List (String × α) :=
  l.filter (fun kv => !(kv.1 == k))

/-- Sequencing of workflow steps: the promise chain stops at the first
`handleError` / `process.exit`. -/
def andThen (r : RepoState × Option GitflowError)
    (f : RepoState → RepoState × Option GitflowError) :
    RepoState × Option GitflowError :=
  match r with
  | (st, some e) => (st, some e)
  | (st, none) => f st

/-- Embeds `checkUncommittedChanges`. -/
def checkUncommittedChanges (st : RepoState) : RepoState × Option GitflowError :=
  if st.clean then (st, none) else (st, some .uncommittedChanges)

/-- Embeds `switchToBranchAndPull`: checkout plus pull, synchronising the
local branch from the remote. -/
def switchToBranchAndPull (st : RepoState) (branch : String) :
    RepoState × Option GitflowError :=
  match alookup st.remoteBranches branch with
  | none => (st, some .underlyingToolFailure)
  | some m =>
    ({ st with current := branch, localBranches := aupsert branch m st.localBranches },
      none)

/-- Embeds `checkRemoteBranchExists`: `git ls-remote --heads` output tested
with `includes('refs/heads/<name>')`, which holds exactly when some remote
branch name extends `branchName`. -/
def checkRemoteBranchExists (st : RepoState) (branchName : String) : Bool :=
  st.remoteBranches.any (fun kv => strStartsWith kv.1 branchName)

/-- Embeds `getVersionFromBranch`: `git show <branch>:package.json` reads the
committed manifest of the local branch ref. -/
def getVersionFromBranch (st : RepoState) (branch : String) : Option String :=
  match alookup st.localBranches branch with
  | none => none
  | some m => some m.version

/-- Replaces the committed manifest of a local branch. -/
def setLocalManifest (st : RepoState) (branch : String) (m : PackageJson) : RepoState :=
  { st with localBranches := aupsert branch m st.localBranches }

/-- Embeds `mergeFromBranch` (`git merge --no-ff <from>` into the checked-out
branch): the merged-in branch's manifest content is taken, see the section
comment. -/
def mergeFromBranch (st : RepoState) (fromBranch : String) :
    RepoState × Option GitflowError :=
  match alookup st.localBranches fromBranch with
  | none => (st, some .underlyingToolFailure)
  | some m => (setLocalManifest st st.current m, none)

/-- Embeds `changePackageJsonVersion` / `changeLernaProjectVersion` run in the
working directory of the checked-out branch. -/
def changePackageJsonVersionStep (st : RepoState) (version : String) :
    RepoState × Option GitflowError :=
  match alookup st.localBranches st.current with
  | none => (st, some .underlyingToolFailure)
  | some m => (setLocalManifest st st.current { m with version := version }, none)

/-- Embeds `createAndPushTag`: annotated tag at the version plus
`git push --tags`. -/
def createAndPushTag (st : RepoState) (version : String) : RepoState :=
  { st with tags := st.tags ++ [version], pushedTags := st.pushedTags ++ [version] }

/-- Embeds `push` of the checked-out branch. -/
def pushCurrent (st : RepoState) : RepoState × Option GitflowError :=
  match alookup st.localBranches st.current with
  | none => (st, some .underlyingToolFailure)
  | some m =>
    ({ st with remoteBranches := aupsert st.current m st.remoteBranches }, none)

/-- Embeds `commitAndPush` to a branch (commit is content-transparent here). -/
def commitAndPush (st : RepoState) (branch : String) :
    RepoState × Option GitflowError :=
  match alookup st.localBranches branch with
  | none => (st, some .underlyingToolFailure)
  | some m =>
    ({ st with remoteBranches := aupsert branch m st.remoteBranches }, none)

/-- Embeds `deleteBranch`: `git push origin --delete` plus local delete. -/
def deleteBranch (st : RepoState) (branch : String) : RepoState :=
  { st with
    remoteBranches := aremove branch st.remoteBranches,
    localBranches := aremove branch st.localBranches }

/-- The `validateDependencies` step of a workflow: reads the manifest of the
working directory, i.e. of the checked-out branch. -/
def validateDependenciesStep (st : RepoState) (targetBranchType : String)
    (excludePackages : List String) : RepoState × Option GitflowError :=
  match alookup st.localBranches st.current with
  | none => (st, some .underlyingToolFailure)
  | some packageJson =>
    match validateDependencies targetBranchType excludePackages packageJson with
    | some offenders => (st, some (.invalidDependencies offenders))
    | none => (st, none)

/-- The dist-tag rewrite step run in the working directory of the checked-out
branch (`updateDistTagsDependencies` and its lock-file-free variant). -/
def updateDistTagsStep (st : RepoState) (versionPredicate : String → Bool)
    (newVersion : String) : RepoState × Option GitflowError :=
  match alookup st.localBranches st.current with
  | none => (st, some .underlyingToolFailure)
  | some m =>
    (setLocalManifest st st.current
      (updateDistTagDependencies m versionPredicate newVersion).1, none)

/-- Embeds `finishReleaseBranch` (from `lib/release-branch-scripts.js`), the
shared release-finish / hotfix-finish workflow, for the single-package
layout. -/
def finishReleaseBranch (branchName : String)
    (packagesToExcludeFromVersionValidation : List String) (st : RepoState) :
    RepoState × Option GitflowError :=
  andThen (checkUncommittedChanges st) (fun st =>
  andThen (switchToBranchAndPull st branchName) (fun st =>
  andThen (validateDependenciesStep st "main" packagesToExcludeFromVersionValidation) (fun st =>
  match getVersionFromBranch st branchName with
  | none => (st, some .underlyingToolFailure)
  | some version =>
    match getVersionCore version with
    | none => (st, some .invalidVersionFormat)
    | some branchVersion =>
      andThen (switchToBranchAndPull st "main") (fun st =>
      andThen (mergeFromBranch st branchName) (fun st =>
      andThen (changePackageJsonVersionStep st branchVersion) (fun st =>
      let st := createAndPushTag st branchVersion
      andThen (pushCurrent st) (fun st =>
      andThen (switchToBranchAndPull st "develop") (fun st =>
      andThen (mergeFromBranch st "main") (fun st =>
      match getVersionFromBranch st "main" with
      | none => (st, some .underlyingToolFailure)
      | some mainVersion =>
        match getIncrementedPatchVersion mainVersion with
        | none => (st, some .invalidVersionFormat)
        | some incVersion =>
          andThen (changePackageJsonVersionStep st incVersion) (fun st =>
          andThen (commitAndPush st "develop") (fun st =>
          (deleteBranch st branchName, none))))))))))))

/-- Embeds `updateBranchWithDevelop`: `git pull origin develop` into the
checked-out topic branch; the manifest content is modelled as the topic side
(a conflicting merge aborts the run externally). -/
def updateBranchWithDevelop (st : RepoState) : RepoState × Option GitflowError :=
  match alookup st.remoteBranches "develop" with
  | none => (st, some .underlyingToolFailure)
  | some _ => (st, none)

/-- Embeds `mergeToDevelop`: merges the topic branch into `develop` (no-ff or
squash — content-equivalent in this model). -/
def mergeToDevelop (st : RepoState) (branch : String) (_squash : Bool) :
    RepoState × Option GitflowError :=
  match alookup st.localBranches branch with
  | none => (st, some .underlyingToolFailure)
  | some m => (setLocalManifest st "develop" m, none)

/-- Embeds `finishTopicBranch` (feature-finish / bugfix-finish).  The branch
guard is `branch.search(branchType) === -1`: a substring test on the current
branch name. -/
def finishTopicBranch (branchType : String) (squash : Bool) (st : RepoState) :
    RepoState × Option GitflowError :=
  andThen (checkUncommittedChanges st) (fun st =>
  let currentBranch := st.current
  if !(strContains currentBranch branchType) then (st, some .wrongBranch)
  else
    andThen (updateBranchWithDevelop st) (fun st =>
    andThen (switchToBranchAndPull st "develop") (fun st =>
    andThen (mergeToDevelop st currentBranch squash) (fun st =>
    match getVersionFromBranch st "develop" with
    | none => (st, some .underlyingToolFailure)
    | some version =>
      andThen (changePackageJsonVersionStep st version) (fun st =>
      andThen (updateDistTagsStep st
        (fun v => strStartsWith v "feature" || strStartsWith v "bugfix") "dev") (fun st =>
      andThen (commitAndPush st "develop") (fun st =>
      (deleteBranch st currentBranch, none))))))))

/-- The prefix test `/^\d+\.\d+\.\d/` of `hasNotStableDependencies`. -/
def coreLikeStart (version : String) : Bool :=
  match takeDigits version.data with
  | ([], _) => false
  | (_ :: _, r1) =>
    match r1 with
    | '.' :: r2 =>
      match takeDigits r2 with
      | ([], _) => false
      | (_ :: _, r3) =>
        match r3 with
        | '.' :: r4 =>
          match r4 with
          | c :: _ => isDigitChar c
          | [] => false
        | _ => false
    | _ => false

/-- The git-URL test `/^git:|^git\+https:|^git\+http:|^git\+ssh:|^git\+file:/`
of `hasNotStableDependencies`. -/
def hasGitProtocol (version : String) : Bool :=
  ["git:", "git+https:", "git+http:", "git+ssh:", "git+file:"].any
    (fun p => strStartsWith version p)

/-- Embeds `hasNotStableDependencies` of `bin/release-start.js`. -/
def hasNotStableDependencies (packageJson : PackageJson) : Bool :=
  (mergedDependencies packageJson).any (fun dv =>
    (!(coreLikeStart dv.2) || strContains dv.2 "dev") && !(hasGitProtocol dv.2))

/-- The `checkPackageJsonVersions` step of release-start: when no lock file of
any flavour exists, the dependency stability check must pass (the lock-file
existence is a state flag here). -/
def checkPackageJsonVersionsStep (hasLockFile : Bool) (st : RepoState) :
    RepoState × Option GitflowError :=
  if hasLockFile then (st, none)
  else
    match alookup st.localBranches st.current with
    | none => (st, some .underlyingToolFailure)
    | some m =>
      if hasNotStableDependencies m then (st, some (.invalidDependencies []))
      else (st, none)

/-- Embeds `createReleaseBranch`: `git checkout -b release develop`. -/
def createReleaseBranchStep (st : RepoState) : RepoState × Option GitflowError :=
  match alookup st.localBranches "develop" with
  | none => (st, some .underlyingToolFailure)
  | some m =>
    ({ st with current := "release", localBranches := aupsert "release" m st.localBranches },
      none)

/-- Embeds the release-start chain (`bin/release-start.js`): the optional
explicit version is validated up front to be a bare version core; the command
aborts with a workflow-already-in-progress error when a remote `release`
branch already exists, before any branch is created or state is changed. -/
def releaseStart (specifiedVersion : Option String) (hasLockFile : Bool)
    (st : RepoState) : RepoState × Option GitflowError :=
  match specifiedVersion with
  | some v =>
    match getVersionCore v with
    | none => (st, some .invalidVersionFormat)
    | some versionCore =>
      if versionCore ≠ v then (st, some .invalidVersionFormat)
      else releaseStartAfterArgCheck specifiedVersion hasLockFile st
  | none => releaseStartAfterArgCheck specifiedVersion hasLockFile st
where
  releaseStartAfterArgCheck (specifiedVersion : Option String) (hasLockFile : Bool)
      (st : RepoState) : RepoState × Option GitflowError :=
    andThen (checkUncommittedChanges st) (fun st =>
    if checkRemoteBranchExists st "release" then (st, some .workflowAlreadyInProgress)
    else
      andThen (switchToBranchAndPull st "develop") (fun st =>
      andThen (checkPackageJsonVersionsStep hasLockFile st) (fun st =>
      andThen (createReleaseBranchStep st) (fun st =>
      andThen (match specifiedVersion with
               | some v => changePackageJsonVersionStep st v
               | none => (st, none)) (fun st =>
      andThen (updateDistTagsStep st (fun version => version == "dev") "next") (fun st =>
      andThen (commitAndPush st "release") (fun st =>
      (st, none))))))))

/-- Embeds `createHotfixBranch`'s checkout: `git checkout -b hotfix main`. -/
def createHotfixBranchStep (st : RepoState) : RepoState × Option GitflowError :=
  match alookup st.localBranches "main" with
  | none => (st, some .underlyingToolFailure)
  | some m =>
    ({ st with current := "hotfix", localBranches := aupsert "hotfix" m st.localBranches },
      none)

/-- Embeds the hotfix-start chain (`bin/hotfix-start.js`): aborts with a
workflow-already-in-progress error when a remote `hotfix` branch already
exists, before any branch is created or state is changed; otherwise branches
from `main` with the patch-incremented version. -/
def hotfixStart (st : RepoState) : RepoState × Option GitflowError :=
  andThen (checkUncommittedChanges st) (fun st =>
  if checkRemoteBranchExists st "hotfix" then (st, some .workflowAlreadyInProgress)
  else
    andThen (switchToBranchAndPull st "main") (fun st =>
    match getVersionFromBranch st "main" with
    | none => (st, some .underlyingToolFailure)
    | some version =>
      match getIncrementedPatchVersion version with
      | none => (st, some .invalidVersionFormat)
      | some hotfixVersion =>
        andThen (createHotfixBranchStep st) (fun st =>
        andThen (changePackageJsonVersionStep st hotfixVersion) (fun st =>
        andThen (commitAndPush st "hotfix") (fun st =>
        (st, none))))))

/-! ### Specification-side definitions

The branch taxonomy and the §4.3 policy table, written from the
specification's words, to be compared with `getAllowedTags` /
`isVersionAllowed` from the source. -/

inductive BranchType where
  | main
  | develop
  | release
  | hotfix
  | feature
  | bugfix
deriving DecidableEq, Repr

def branchTypeName : BranchType → String
  | .main => "main"
  | .develop => "develop"
  | .release => "release"
  | .hotfix => "hotfix"
  | .feature => "feature"
  | .bugfix => "bugfix"

/-- The exact-tag column of the policy table: main none, release `next`,
hotfix `hotfix`, develop/feature/bugfix `dev`. -/
def policyExactTags : BranchType → List String
  | .main => []
  | .release => ["next"]
  | .hotfix => ["hotfix"]
  | .develop => ["dev"]
  | .feature => ["dev"]
  | .bugfix => ["dev"]

/-- The tag-prefix column of the policy table: `feature` for feature,
`bugfix` for bugfix, none otherwise. -/
def policyPrefixTags : BranchType → List String
  | .feature => ["feature"]
  | .bugfix => ["bugfix"]
  | _ => []

/-! ### Test fixtures (concrete inputs used by witnesses and counterexamples) -/

/-- An otherwise-valid dependency map carrying `@mui/lab@alpha-1`. -/
def muiManifest : PackageJson :=
  ⟨"1.0.0", [("@mui/lab", "alpha-1"), ("react", "18.2.0")], [], []⟩

/-- The §8 develop-policy example: `a@1.0.0`, `b@dev`, `c@feature-x`. -/
def demoManifest : PackageJson :=
  ⟨"1.0.0", [("a", "1.0.0"), ("b", "dev"), ("c", "feature-x")], [], []⟩

/-- The §8 lock-file example manifest: both `@scope` packages declared. -/
def scopeManifest : PackageJson :=
  ⟨"1.0.0", [("@scope/a", "1.0.0"), ("@scope/b", "dev")], [("other", "1.0.0")], []⟩

/-- The §8 lock-file example `packages` map. -/
def scopeLock : LockFile :=
  ⟨[("node_modules/@scope/a", "u1"), ("node_modules/@scope/b", "u2"),
    ("node_modules/other/c", "u3")]⟩

/-- A repository whose checked-out branch contains `feature` as a substring
without starting with it, with everything in place for a full topic-finish
run. -/
def oddBranchState : RepoState :=
  ⟨true, "my-feature-x",
   [("main", ⟨"2.2.0", [], [], []⟩), ("develop", ⟨"2.3.0-dev.4", [], [], []⟩),
    ("my-feature-x", ⟨"2.3.0-feature-x.0", [], [], []⟩)],
   [("main", ⟨"2.2.0", [], [], []⟩), ("develop", ⟨"2.3.0-dev.4", [], [], []⟩),
    ("my-feature-x", ⟨"2.3.0-feature-x.0", [], [], []⟩)],
   [], []⟩

/-- A clean repository with both singleton branches already present
remotely. -/
def inProgressState : RepoState :=
  ⟨true, "develop",
   [("develop", ⟨"2.3.0-dev.4", [], [], []⟩)],
   [("develop", ⟨"2.3.0-dev.4", [], [], []⟩), ("release", ⟨"2.3.0-next.0", [], [], []⟩),
    ("hotfix", ⟨"2.2.1", [], [], []⟩)],
   [], []⟩

/-- A clean repository ready for the end-to-end release-finish scenario. -/
def releaseScenarioState : RepoState :=
  ⟨true, "release",
   [("main", ⟨"2.2.0", [], [], []⟩), ("develop", ⟨"2.3.0-dev.4", [], [], []⟩),
    ("release", ⟨"2.3.0-next.0", [("react", "18.2.0")], [], []⟩)],
   [("main", ⟨"2.2.0", [], [], []⟩), ("develop", ⟨"2.3.0-dev.4", [], [], []⟩),
    ("release", ⟨"2.3.0-next.0", [("react", "18.2.0")], [], []⟩)],
   ["2.2.0"], ["2.2.0"]⟩

/-! ### Helper lemmas -/

theorem alookup_aupsert_self {α : Type} (k : String) (v : α) (l : List (String × α)) :
    alookup (aupsert k v l) k = some v := by
  induction l with
  | nil => simp [aupsert, alookup]
  | cons hd t ih =>
    obtain ⟨a, b⟩ := hd
    by_cases hk : a = k
    · simp [aupsert, hk, alookup]
    · simp [aupsert, hk, alookup, ih]

theorem alookup_aupsert_ne {α : Type} (k k2 : String) (v : α) (l : List (String × α))
    (hne : k2 ≠ k) : alookup (aupsert k v l) k2 = alookup l k2 := by
  induction l with
  | nil => simp [aupsert, alookup, Ne.symm hne]
  | cons hd t ih =>
    obtain ⟨a, b⟩ := hd
    by_cases hk : a = k
    · subst hk
      simp [aupsert, alookup, Ne.symm hne]
    · simp [aupsert, hk, alookup, ih]

theorem alookup_aremove_self {α : Type} (k : String) (l : List (String × α)) :
    alookup (aremove k l) k = none := by
  induction l with
  | nil => simp [aremove, alookup]
  | cons hd t ih =>
    obtain ⟨a, b⟩ := hd
    by_cases hk : a = k
    · simpa [aremove, List.filter_cons, hk] using ih
    · simpa [aremove, List.filter_cons, hk, alookup] using ih

theorem alookup_aremove_ne {α : Type} (k k2 : String) (l : List (String × α))
    (hne : k2 ≠ k) : alookup (aremove k l) k2 = alookup l k2 := by
  induction l with
  | nil => simp [aremove, alookup]
  | cons hd t ih =>
    obtain ⟨a, b⟩ := hd
    by_cases hk : a = k
    · subst hk
      simpa [aremove, List.filter_cons, alookup, Ne.symm hne] using ih
    · simp only [aremove] at ih
      simp [aremove, List.filter_cons, hk, alookup, ih]

theorem listIsPrefixOf_refl (l : List Char) : l.isPrefixOf l = true := by
  induction l with
  | nil => rfl
  | cons c t ih => simp [List.isPrefixOf, ih]

theorem strStartsWith_refl (s : String) : strStartsWith s s = true :=
  listIsPrefixOf_refl s.data

theorem any_startsWith_of_alookup {α : Type} (l : List (String × α)) (k : String)
    (m : α) (h : alookup l k = some m) :
    l.any (fun kv => strStartsWith kv.1 k) = true := by
  induction l with
  | nil => simp [alookup] at h
  | cons hd t ih =>
    obtain ⟨a, b⟩ := hd
    by_cases hk : a = k
    · subst hk
      simp [List.any_cons, strStartsWith_refl]
    · simp only [alookup, hk, if_false] at h
      simp [List.any_cons, ih h]

theorem checkRemoteBranchExists_of_alookup (st : RepoState) (k : String)
    (m : PackageJson) (h : alookup st.remoteBranches k = some m) :
    checkRemoteBranchExists st k = true :=
  any_startsWith_of_alookup st.remoteBranches k m h

/-- The accumulation loop of `validateDependencies` computes the offenders of
the filter characterisation, appended to the accumulator in order. -/
theorem collectInvalidDeps_spec (targetBranchType : String)
    (excludePackages : List String) :
    ∀ (entries : List (String × String)) (acc : List String),
      collectInvalidDeps targetBranchType excludePackages entries acc =
        acc ++ (entries.filter (fun dv =>
            !excludePackages.contains dv.1 &&
            !isVersionAllowed dv.2 targetBranchType)).map
          (fun dv => formatDep dv.1 dv.2) := by
  intro entries
  induction entries with
  | nil => intro acc; simp [collectInvalidDeps]
  | cons hd t ih =>
    intro acc
    obtain ⟨dep, version⟩ := hd
    by_cases hex : dep ∈ excludePackages
    · simp [collectInvalidDeps, hex, List.filter_cons, ih]
    · cases hal : isVersionAllowed version targetBranchType
      · simp [collectInvalidDeps, hex, hal, List.filter_cons, ih]
      · simp [collectInvalidDeps, hex, hal, List.filter_cons, ih]

/-- `validateDependencies` as an explicit case split on the offender list. -/
theorem validateDependencies_eq (targetBranchType : String)
    (excludePackages : List String) (packageJson : PackageJson) :
    validateDependencies targetBranchType excludePackages packageJson =
      (if offendingEntries targetBranchType excludePackages packageJson = [] then none
       else some ((offendingEntries targetBranchType excludePackages packageJson).map
         (fun dv => formatDep dv.1 dv.2))) := by
  simp only [validateDependencies, offendingEntries,
    collectInvalidDeps_spec targetBranchType excludePackages
      (mergedDependencies packageJson) [], List.nil_append]
  by_cases he : (mergedDependencies packageJson).filter
      (fun dv => !excludePackages.contains dv.1 &&
        !isVersionAllowed dv.2 targetBranchType) = []
  · rw [he]
    simp
  · rw [if_neg he, if_neg (by simpa using he)]

/-- One rewrite pass leaves no entry satisfying the predicate when the new tag
itself does not satisfy it, so a second pass over one dependency map is the
identity with no entries reported. -/
theorem updateDepList_fixpoint (versionPredicate : String → Bool)
    (newVersion : String) (h : versionPredicate newVersion = false) :
    ∀ l, updateDepList versionPredicate newVersion
        (updateDepList versionPredicate newVersion l).1 =
      ((updateDepList versionPredicate newVersion l).1, []) := by
  intro l
  induction l with
  | nil => simp [updateDepList]
  | cons hd t ih =>
    obtain ⟨pkg, version⟩ := hd
    by_cases hv : versionPredicate version = true
    · simp [updateDepList, hv, h, ih]
    · have hv2 : versionPredicate version = false := by
        cases hc : versionPredicate version
        · rfl
        · exact absurd hc hv
      simp [updateDepList, hv2, ih]

/-- The manifest-level second pass is the identity with no packages
reported. -/
theorem updateDistTagDependencies_fixpoint (versionPredicate : String → Bool)
    (newVersion : String) (h : versionPredicate newVersion = false)
    (packageJson : PackageJson) :
    updateDistTagDependencies
        (updateDistTagDependencies packageJson versionPredicate newVersion).1
        versionPredicate newVersion =
      ((updateDistTagDependencies packageJson versionPredicate newVersion).1, []) := by
  simp [updateDistTagDependencies, updateDepList_fixpoint versionPredicate newVersion h]

/-- The manifest-set second pass is the identity with no packages reported. -/
theorem updateManifestSet_fixpoint (versionPredicate : String → Bool)
    (newVersion : String) (h : versionPredicate newVersion = false) :
    ∀ ms : List PackageJson,
      updateManifestSet versionPredicate newVersion
          (updateManifestSet versionPredicate newVersion ms).1 =
        ((updateManifestSet versionPredicate newVersion ms).1, []) := by
  intro ms
  induction ms with
  | nil => simp [updateManifestSet]
  | cons m t ih =>
    simp [updateManifestSet,
      updateDistTagDependencies_fixpoint versionPredicate newVersion h, ih]

/-! ### The claims -/

/-- C3: `getIncrementedPatchVersion` maps `"1.2.3"` to `"1.2.4"`, strips the
prerelease of `"1.2.3-dev.0"` before incrementing to `"1.2.4"`, and returns
`none` (the callers' invalid-version error) on `"not-a-version"` and on every
string the semver parser rejects. -/
theorem getIncrementedPatchVersion_spec :
    getIncrementedPatchVersion "1.2.3" = some "1.2.4" ∧
    getIncrementedPatchVersion "1.2.3-dev.0" = some "1.2.4" ∧
    getIncrementedPatchVersion "not-a-version" = none ∧
    ∀ version, semverParse version = none →
      getIncrementedPatchVersion version = none := by
  refine ⟨by decide, by decide, by decide, ?_⟩
  intro version h
  simp [getIncrementedPatchVersion, getVersionCore, h]

/-- Witness for C3 at the invalid input `"1.2"`. -/
theorem getIncrementedPatchVersion_spec_witness :
    semverParse "1.2" = none ∧ getIncrementedPatchVersion "1.2" = none :=
  ⟨by decide, getIncrementedPatchVersion_spec.2.2.2 "1.2" (by decide)⟩

/-- C2 (counterexample): the validator has no special case for direct
source-location references — a `git+https` URL (recognized as a VCS reference
by the release-start stability check's own pattern) is classified as not
allowed under the `main` policy, while the claim requires every VCS URL to be
allowed under every branch type. -/
theorem vcsUrl_not_special_cased :
    hasGitProtocol "git+https://github.com/org/repo.git" = true ∧
    isVersionAllowed "git+https://github.com/org/repo.git" "main" = false :=
  ⟨by decide, by decide⟩

/-- C2 (amended): for every branch type and specifier, the validator allows
the specifier exactly when it passes the release-version check, equals an
exact tag of the §4.3 policy table, or starts with a tag prefix of the table;
there is no source-location clause. -/
theorem isVersionAllowed_policy_table :
    ∀ (b : BranchType) (version : String),
      isVersionAllowed version (branchTypeName b) =
        (isReleaseVersion version ||
          (policyExactTags b).contains version ||
          (policyPrefixTags b).any (fun p => strStartsWith version p)) := by
  intro b version
  cases b <;>
    cases hr : isReleaseVersion version <;>
      simp [isVersionAllowed, branchTypeName, getAllowedTags, policyExactTags,
        policyPrefixTags, hr]

/-- C10 (code behaviour at the failing input): the release-version check does
accept an inequality range with clean comparators, but node-semver 7 desugars
caret and tilde with a `-0` prerelease upper bound, so `^1.2.3` and `~2.0.0`
are rejected under the `main` policy, contrary to the claim (and to the
function's own comments about supporting caret/tilde ranges). -/
theorem caret_range_rejected_on_main :
    isReleaseVersion ">=1.0.0" = true ∧
    isVersionAllowed ">=1.0.0" "main" = true ∧
    isReleaseVersion "^1.2.3-alpha.1" = false ∧
    isVersionAllowed "^1.2.3" "main" = false ∧
    isVersionAllowed "~2.0.0" "main" = false := by
  refine ⟨by decide, by decide, by decide, by decide, by decide⟩

/-- C4: the validator never reports an excluded package — every offending
entry has a name outside the exclusion set — and concretely `@mui/lab@alpha-1`
fails the `main` policy when not excluded and passes when excluded. -/
theorem validator_exclusion_bypass :
    (∀ (targetBranchType : String) (excludePackages : List String)
        (packageJson : PackageJson) (e : String × String),
        e ∈ offendingEntries targetBranchType excludePackages packageJson →
        excludePackages.contains e.1 = false) ∧
    validateDependencies "main" [] muiManifest = some ["@mui/lab@alpha-1"] ∧
    validateDependencies "main" ["@mui/lab"] muiManifest = none := by
  refine ⟨?_, by decide, by decide⟩
  intro targetBranchType excludePackages packageJson e he
  have hmem := List.mem_filter.mp he
  have hpred := hmem.2
  simp only [Bool.and_eq_true, Bool.not_eq_true'] at hpred
  exact hpred.1

/-- Witness for C4: applying the exclusion property at the concrete offending
entry of `muiManifest` under an unrelated exclusion set. -/
theorem validator_exclusion_bypass_witness :
    (["left-pad"] : List String).contains "@mui/lab" = false :=
  validator_exclusion_bypass.1 "main" ["left-pad"] muiManifest
    ("@mui/lab", "alpha-1") (by decide)

/-- C5: the validator succeeds exactly when there is no offending entry, and
on failure the single error lists every offender, formatted `package@version`,
in dependency-map order. -/
theorem validateDependencies_reports_all_offenders :
    ∀ (targetBranchType : String) (excludePackages : List String)
      (packageJson : PackageJson),
      (validateDependencies targetBranchType excludePackages packageJson = none ↔
        offendingEntries targetBranchType excludePackages packageJson = []) ∧
      ∀ offenders,
        validateDependencies targetBranchType excludePackages packageJson =
            some offenders →
        offenders =
          (offendingEntries targetBranchType excludePackages packageJson).map
            (fun dv => formatDep dv.1 dv.2) := by
  intro targetBranchType excludePackages packageJson
  rw [validateDependencies_eq]
  by_cases he : offendingEntries targetBranchType excludePackages packageJson = []
  · simp [he]
  · constructor
    · simp [he]
    · intro offenders hsome
      rw [if_neg he] at hsome
      exact (Option.some.inj hsome).symm

/-- Witness for C5 at the §8 develop-policy example: the full offender list is
exactly `c@feature-x`. -/
theorem validateDependencies_reports_all_offenders_witness :
    (["c@feature-x"] : List String) =
      (offendingEntries "develop" [] demoManifest).map
        (fun dv => formatDep dv.1 dv.2) :=
  (validateDependencies_reports_all_offenders "develop" [] demoManifest).2
    ["c@feature-x"] (by decide)

/-- C6: rewriting the `dev` entries of a manifest set to `next` twice yields
the same manifests as rewriting once, and the second pass reports no updated
package: the predicate only ever sees original values and no rewritten entry
still equals `dev`. -/
theorem distTagRewrite_idempotent :
    ∀ ms : List PackageJson,
      updateManifestSet (fun version => version == "dev") "next"
          (updateManifestSet (fun version => version == "dev") "next" ms).1 =
        ((updateManifestSet (fun version => version == "dev") "next" ms).1,
          ([] : List String)) :=
  updateManifestSet_fixpoint (fun version => version == "dev") "next" (by decide)

/-- C9: pruning the §8 lock file with scope `@scope` removes exactly the two
`node_modules/@scope` entries and reports `@scope/a` and `@scope/b` for
re-resolution; an empty affected set leaves the lock file untouched and
re-resolves nothing. -/
theorem lockFile_pruning :
    processLockFile ["@scope"] scopeManifest scopeLock =
      (⟨[("node_modules/other/c", "u3")]⟩, ["@scope/a", "@scope/b"]) ∧
    ∀ (scopes : List String) (packageJson : PackageJson) (lockFileData : LockFile),
      collectScopePackages scopes packageJson = [] →
      processLockFile scopes packageJson lockFileData = (lockFileData, []) := by
  refine ⟨by decide, ?_⟩
  intro scopes packageJson lockFileData h
  simp [processLockFile, h]

/-- Witness for C9: a scope matching nothing is a no-op. -/
theorem lockFile_pruning_witness :
    processLockFile ["@none"] scopeManifest scopeLock = (scopeLock, []) :=
  lockFile_pruning.2 ["@none"] scopeManifest scopeLock (by decide)

/-- C7: release-start and hotfix-start fail with the
workflow-already-in-progress error, leaving the repository untouched, whenever
their singleton branch already exists remotely; conversely a successful run
implies the branch did not exist remotely beforehand. -/
theorem singleton_branch_guard :
    (∀ (st : RepoState) (m : PackageJson) (specifiedVersion : Option String)
        (hasLockFile : Bool),
        st.clean = true →
        (∀ v, specifiedVersion = some v → getVersionCore v = some v) →
        alookup st.remoteBranches "release" = some m →
        releaseStart specifiedVersion hasLockFile st =
          (st, some .workflowAlreadyInProgress)) ∧
    (∀ (st : RepoState) (m : PackageJson),
        st.clean = true →
        alookup st.remoteBranches "hotfix" = some m →
        hotfixStart st = (st, some .workflowAlreadyInProgress)) ∧
    (∀ (st : RepoState) (specifiedVersion : Option String) (hasLockFile : Bool),
        (releaseStart specifiedVersion hasLockFile st).2 = none →
        alookup st.remoteBranches "release" = none) ∧
    (∀ st : RepoState, (hotfixStart st).2 = none →
        alookup st.remoteBranches "hotfix" = none) := by
  refine ⟨?_, ?_, ?_, ?_⟩
  · intro st m specifiedVersion hasLockFile hclean hsv hrel
    have hrb := checkRemoteBranchExists_of_alookup st "release" m hrel
    cases specifiedVersion with
    | none =>
      simp [releaseStart, releaseStart.releaseStartAfterArgCheck, andThen,
        checkUncommittedChanges, hclean, hrb]
    | some v =>
      have hv := hsv v rfl
      simp [releaseStart, hv, releaseStart.releaseStartAfterArgCheck, andThen,
        checkUncommittedChanges, hclean, hrb]
  · intro st m hclean hhot
    have hrb := checkRemoteBranchExists_of_alookup st "hotfix" m hhot
    simp [hotfixStart, andThen, checkUncommittedChanges, hclean, hrb]
  · intro st specifiedVersion hasLockFile h
    cases halt : alookup st.remoteBranches "release" with
    | none => rfl
    | some m =>
      exfalso
      have hrb := checkRemoteBranchExists_of_alookup st "release" m halt
      cases specifiedVersion with
      | none =>
        cases hclean : st.clean <;>
          simp [releaseStart, releaseStart.releaseStartAfterArgCheck, andThen,
            checkUncommittedChanges, hclean, hrb] at h
      | some v =>
        cases hv : getVersionCore v with
        | none => simp [releaseStart, hv] at h
        | some c =>
          by_cases hc : c = v
          · cases hclean : st.clean <;>
              simp [releaseStart, hv, hc, releaseStart.releaseStartAfterArgCheck,
                andThen, checkUncommittedChanges, hclean, hrb] at h
          · simp [releaseStart, hv, hc] at h
  · intro st h
    cases halt : alookup st.remoteBranches "hotfix" with
    | none => rfl
    | some m =>
      exfalso
      have hrb := checkRemoteBranchExists_of_alookup st "hotfix" m halt
      cases hclean : st.clean <;>
        simp [hotfixStart, andThen, checkUncommittedChanges, hclean, hrb] at h

/-- Witness for C7 at a repository whose remote already has `release` and
`hotfix`. -/
theorem singleton_branch_guard_witness :
    releaseStart none true inProgressState =
      (inProgressState, some .workflowAlreadyInProgress) ∧
    hotfixStart inProgressState =
      (inProgressState, some .workflowAlreadyInProgress) :=
  ⟨singleton_branch_guard.1 inProgressState ⟨"2.3.0-next.0", [], [], []⟩ none true
      rfl (fun _ h => Option.noConfusion h) (by decide),
    singleton_branch_guard.2.1 inProgressState ⟨"2.2.1", [], [], []⟩ rfl (by decide)⟩

/-- C8 (counterexample): a run of feature-finish from branch `my-feature-x`,
whose name does not start with `feature` but contains it, completes without
any wrong-branch failure — the guard is a substring test, not a prefix
match. -/
theorem topic_finish_substring_cex :
    strStartsWith "my-feature-x" "feature" = false ∧
    strContains "my-feature-x" "feature" = true ∧
    (finishTopicBranch "feature" false oddBranchState).2 = none := by
  refine ⟨by decide, by decide, by decide⟩

/-- Sequencing preserves "never fails with a given error". -/
theorem andThen_snd_ne (r : RepoState × Option GitflowError)
    (f : RepoState → RepoState × Option GitflowError) (e : GitflowError)
    (hr : r.2 ≠ some e) (hf : ∀ st, (f st).2 ≠ some e) :
    (andThen r f).2 ≠ some e := by
  obtain ⟨st, oe⟩ := r
  cases oe with
  | none => exact hf st
  | some e2 => simpa [andThen] using hr

theorem checkUncommittedChanges_snd_ne_wrong (st : RepoState) :
    (checkUncommittedChanges st).2 ≠ some .wrongBranch := by
  cases hc : st.clean <;> simp [checkUncommittedChanges, hc]

theorem switchToBranchAndPull_snd_ne_wrong (st : RepoState) (b : String) :
    (switchToBranchAndPull st b).2 ≠ some .wrongBranch := by
  cases halt : alookup st.remoteBranches b <;> simp [switchToBranchAndPull, halt]

theorem validateDependenciesStep_snd_ne_wrong (st : RepoState) (bt : String)
    (excl : List String) :
    (validateDependenciesStep st bt excl).2 ≠ some .wrongBranch := by
  cases h1 : alookup st.localBranches st.current with
  | none => simp [validateDependenciesStep, h1]
  | some p =>
    cases h2 : validateDependencies bt excl p <;>
      simp [validateDependenciesStep, h1, h2]

theorem mergeFromBranch_snd_ne_wrong (st : RepoState) (b : String) :
    (mergeFromBranch st b).2 ≠ some .wrongBranch := by
  cases halt : alookup st.localBranches b <;> simp [mergeFromBranch, halt]

theorem changePackageJsonVersionStep_snd_ne_wrong (st : RepoState) (v : String) :
    (changePackageJsonVersionStep st v).2 ≠ some .wrongBranch := by
  cases halt : alookup st.localBranches st.current <;>
    simp [changePackageJsonVersionStep, halt]

theorem pushCurrent_snd_ne_wrong (st : RepoState) :
    (pushCurrent st).2 ≠ some .wrongBranch := by
  cases halt : alookup st.localBranches st.current <;> simp [pushCurrent, halt]

theorem commitAndPush_snd_ne_wrong (st : RepoState) (b : String) :
    (commitAndPush st b).2 ≠ some .wrongBranch := by
  cases halt : alookup st.localBranches b <;> simp [commitAndPush, halt]

/-- C8 (amended): feature-finish/bugfix-finish fail with the wrong-branch
error, before any merge and with the repository untouched, exactly when the
current branch name does not contain the branch type as a substring; the
shared release-finish/hotfix-finish workflow performs no current-branch check
at all and can never fail with a wrong-branch error. -/
theorem finish_branch_guard_amended :
    (∀ (st : RepoState) (branchType : String) (squash : Bool),
        st.clean = true →
        strContains st.current branchType = false →
        finishTopicBranch branchType squash st = (st, some .wrongBranch)) ∧
    (∀ (st : RepoState) (branchName : String) (excl : List String),
        (finishReleaseBranch branchName excl st).2 ≠ some .wrongBranch) := by
  constructor
  · intro st branchType squash hclean hsub
    simp [finishTopicBranch, andThen, checkUncommittedChanges, hclean, hsub]
  · intro st branchName excl
    simp only [finishReleaseBranch]
    apply andThen_snd_ne _ _ _ (checkUncommittedChanges_snd_ne_wrong st)
    intro st1
    apply andThen_snd_ne _ _ _ (switchToBranchAndPull_snd_ne_wrong st1 branchName)
    intro st2
    apply andThen_snd_ne _ _ _ (validateDependenciesStep_snd_ne_wrong st2 "main" excl)
    intro st3
    cases h1 : getVersionFromBranch st3 branchName with
    | none => simp
    | some version =>
      dsimp only
      cases h2 : getVersionCore version with
      | none => simp
      | some branchVersion =>
        dsimp only
        apply andThen_snd_ne _ _ _ (switchToBranchAndPull_snd_ne_wrong st3 "main")
        intro st4
        apply andThen_snd_ne _ _ _ (mergeFromBranch_snd_ne_wrong st4 branchName)
        intro st5
        apply andThen_snd_ne _ _ _
          (changePackageJsonVersionStep_snd_ne_wrong st5 branchVersion)
        intro st6
        apply andThen_snd_ne _ _ _
          (pushCurrent_snd_ne_wrong (createAndPushTag st6 branchVersion))
        intro st7
        apply andThen_snd_ne _ _ _ (switchToBranchAndPull_snd_ne_wrong st7 "develop")
        intro st8
        apply andThen_snd_ne _ _ _ (mergeFromBranch_snd_ne_wrong st8 "main")
        intro st9
        cases h3 : getVersionFromBranch st9 "main" with
        | none => simp
        | some mainVersion =>
          dsimp only
          cases h4 : getIncrementedPatchVersion mainVersion with
          | none => simp
          | some incVersion =>
            dsimp only
            apply andThen_snd_ne _ _ _
              (changePackageJsonVersionStep_snd_ne_wrong st9 incVersion)
            intro st10
            apply andThen_snd_ne _ _ _ (commitAndPush_snd_ne_wrong st10 "develop")
            intro st11
            simp

/-- Witness for C8: finishing from `develop`, which does not contain
`feature`, fails with the wrong-branch error and leaves the repository
unchanged. -/
theorem finish_branch_guard_amended_witness :
    finishTopicBranch "feature" false inProgressState =
      (inProgressState, some .wrongBranch) :=
  finish_branch_guard_amended.1 inProgressState "feature" false rfl (by decide)

/-- C1: a release-finish run from a remote `release` branch with manifest
version `2.3.0-next.0` completes, and afterwards: `main`'s manifest version is
the extracted core `2.3.0` locally and remotely, the annotated tag `2.3.0` has
been created and pushed, `develop`'s manifest version is the patch-incremented
core `2.3.1` (no prerelease suffix) locally and remotely, and the `release`
branch is gone both locally and remotely. -/
theorem release_finish_end_to_end :
    ∀ (st : RepoState) (relM mainM devM : PackageJson) (excl : List String),
      st.clean = true →
      alookup st.remoteBranches "release" = some relM →
      relM.version = "2.3.0-next.0" →
      validateDependencies "main" excl relM = none →
      alookup st.remoteBranches "main" = some mainM →
      alookup st.remoteBranches "develop" = some devM →
      ∃ st2 : RepoState,
        finishReleaseBranch "release" excl st = (st2, none) ∧
        (alookup st2.localBranches "main").map PackageJson.version = some "2.3.0" ∧
        (alookup st2.remoteBranches "main").map PackageJson.version = some "2.3.0" ∧
        st2.tags = st.tags ++ ["2.3.0"] ∧
        st2.pushedTags = st.pushedTags ++ ["2.3.0"] ∧
        (alookup st2.localBranches "develop").map PackageJson.version = some "2.3.1" ∧
        (alookup st2.remoteBranches "develop").map PackageJson.version = some "2.3.1" ∧
        alookup st2.localBranches "release" = none ∧
        alookup st2.remoteBranches "release" = none := by
  intro st relM mainM devM excl hclean hrel hver hval hmain hdev
  have hcore : getVersionCore "2.3.0-next.0" = some "2.3.0" := by decide
  have hinc : getIncrementedPatchVersion "2.3.0" = some "2.3.1" := by decide
  simp only [finishReleaseBranch, andThen, checkUncommittedChanges,
    switchToBranchAndPull, validateDependenciesStep, getVersionFromBranch,
    mergeFromBranch, changePackageJsonVersionStep, createAndPushTag, pushCurrent,
    commitAndPush, deleteBranch, setLocalManifest, hclean, hrel, hver, hval,
    hmain, hdev, hcore, hinc, if_true, alookup_aupsert_self,
    alookup_aupsert_ne _ _ _ _ (by decide : ("release" : String) ≠ "main"),
    alookup_aupsert_ne _ _ _ _ (by decide : ("release" : String) ≠ "develop"),
    alookup_aupsert_ne _ _ _ _ (by decide : ("main" : String) ≠ "develop"),
    alookup_aupsert_ne _ _ _ _ (by decide : ("develop" : String) ≠ "main"),
    alookup_aremove_self,
    alookup_aremove_ne _ _ _ (by decide : ("main" : String) ≠ "release"),
    alookup_aremove_ne _ _ _ (by decide : ("develop" : String) ≠ "release")]
  refine ⟨_, rfl, ?_, ?_, ?_, ?_, ?_, ?_, ?_, ?_⟩ <;>
    simp [alookup_aremove_self,
      alookup_aremove_ne _ _ _ (by decide : ("main" : String) ≠ "release"),
      alookup_aremove_ne _ _ _ (by decide : ("develop" : String) ≠ "release"),
      alookup_aupsert_self,
      alookup_aupsert_ne _ _ _ _ (by decide : ("main" : String) ≠ "develop"),
      alookup_aupsert_ne _ _ _ _ (by decide : ("develop" : String) ≠ "main"),
      alookup_aupsert_ne _ _ _ _ (by decide : ("release" : String) ≠ "main"),
      alookup_aupsert_ne _ _ _ _ (by decide : ("release" : String) ≠ "develop")]

/-- Witness for C1 at the concrete release-finish scenario repository. -/
theorem release_finish_end_to_end_witness :
    ∃ st2 : RepoState,
      finishReleaseBranch "release" [] releaseScenarioState = (st2, none) ∧
      (alookup st2.localBranches "main").map PackageJson.version = some "2.3.0" ∧
      (alookup st2.remoteBranches "main").map PackageJson.version = some "2.3.0" ∧
      st2.tags = releaseScenarioState.tags ++ ["2.3.0"] ∧
      st2.pushedTags = releaseScenarioState.pushedTags ++ ["2.3.0"] ∧
      (alookup st2.localBranches "develop").map PackageJson.version = some "2.3.1" ∧
      (alookup st2.remoteBranches "develop").map PackageJson.version = some "2.3.1" ∧
      alookup st2.localBranches "release" = none ∧
      alookup st2.remoteBranches "release" = none :=
  release_finish_end_to_end releaseScenarioState
    ⟨"2.3.0-next.0", [("react", "18.2.0")], [], []⟩
    ⟨"2.2.0", [], [], []⟩ ⟨"2.3.0-dev.4", [], [], []⟩ []
    rfl (by decide) rfl (by decide) (by decide) (by decide)

end NpmGitflow
